import Mathlib

/-
Verification development for the SMTP client engine in src/smtpClient.js.
Strings are modelled as lists of characters; buffers/sockets deliver
character chunks.  Each definition carries a pointer to the source lines
it embeds.
-/

namespace SmtpClient

/-- Convenience: the character list of a string literal. -/
def strL (s : String) : List Char := s.data

/-- The CRLF line terminator (src/smtpClient.js line 6). -/
def crlf : List Char := ['\r', '\n']

/--
Core of createLineReader's onData loop (src/smtpClient.js lines 15-23):
repeatedly find the first "\r\n" in the buffer, emit the characters before
it as a line, and continue after the delimiter; the trailing characters
after the last delimiter are the retained buffer.  Returns
(emitted lines, remaining buffer).
-/
def drain : List Char → List (List Char) × List Char
  | [] => ([], [])
  | [c] => ([], [c])
  | c1 :: c2 :: rest =>
    if c1 = '\r' ∧ c2 = '\n' then
      let p := drain rest
      ([] :: p.1, p.2)
    else
      let p := drain (c2 :: rest)
      match p.1 with
      | [] => ([], c1 :: p.2)
      | l :: ls => ((c1 :: l) :: ls, p.2)

/--
A whole run of the line reader (src/smtpClient.js lines 11-26): starting
from a buffer, append each arriving chunk to the buffer and drain all
complete lines.  Returns the concatenation of all emitted lines, in
order, together with the final buffer.
-/
def lineReaderRun (buf : List Char) : List (List Char) → List (List Char) × List Char
  | [] => ([], buf)
  | c :: cs =>
    let p := drain (buf ++ c)
    let q := lineReaderRun p.2 cs
    (p.1 ++ q.1, q.2)

/--
The line pattern of readResponse (src/smtpClient.js line 51):
a match of /^(\d{3})([ -])(.*)$/ yields the three-digit code, the
separator character and the rest of the line.  JavaScript's dot does not
match a line terminator, hence the rest may not contain a carriage
return or a line feed.
-/
def parseLine : List Char → Option (Nat × Char × List Char)
  | d1 :: d2 :: d3 :: sep :: rest =>
    if d1.isDigit ∧ d2.isDigit ∧ d3.isDigit ∧ (sep = ' ' ∨ sep = '-')
        ∧ rest.all (fun c => decide (c ≠ '\n') && decide (c ≠ '\r')) then
      some ((d1.toNat - 48) * 100 + (d2.toNat - 48) * 10 + (d3.toNat - 48), sep, rest)
    else none
  | _ => none

/-- A line is terminal when it is well formed with a space separator. -/
def termCode (l : List Char) : Option Nat :=
  match parseLine l with
  | some (c, sep, _) => if sep = ' ' then some c else none
  | none => none

/-- Boolean form of "the line is terminal". -/
def isTermB (l : List Char) : Bool :=
  (termCode l).isSome

/-- An assembled SMTP reply (the spec's Response). -/
structure Response where
  code : Nat
  lines : List (List Char)
deriving DecidableEq

/--
The onLine handler of readResponse (src/smtpClient.js lines 48-64) run
over a stream of lines: every line is pushed onto the accumulated line
set; a well-formed line updates the code and, when its separator is a
space, resolves with the code of that line and all lines seen so far.
-/
def respStep : List (List Char) → Option Nat → List (List Char) → Option Response
  | _, _, [] => none
  | acc, code, l :: rest =>
    match parseLine l with
    | some (c, sep, _) =>
      if sep = ' ' then some ⟨c, acc ++ [l]⟩
      else respStep (acc ++ [l]) (some c) rest
    | none => respStep (acc ++ [l]) code rest

/-- Await one complete SMTP response over a stream of lines. -/
def processLines (ls : List (List Char)) : Option Response :=
  respStep [] none ls

/-- The base64 alphabet. -/
def b64Alphabet : List Char :=
  strL "ABCDEFGHIJKLMNOPQRSTUVWXYZabcdefghijklmnopqrstuvwxyz0123456789+/"

/-- One base64 digit. -/
def b64Char (n : Nat) : Char := b64Alphabet.getD n 'A'

/-- Base64 of a byte sequence, with padding. -/
def base64Bytes : List Nat → List Char
  | [] => []
  | [a] => [b64Char (a / 4), b64Char (a % 4 * 16), '=', '=']
  | [a, b] => [b64Char (a / 4), b64Char (a % 4 * 16 + b / 16), b64Char (b % 16 * 4), '=']
  | a :: b :: c :: rest =>
    b64Char (a / 4) :: b64Char (a % 4 * 16 + b / 16) ::
      b64Char (b % 16 * 4 + c / 64) :: b64Char (c % 64) :: base64Bytes rest

/-- The base64 helper (src/smtpClient.js lines 80-82), on ASCII text. -/
def base64 (s : List Char) : List Char :=
  base64Bytes (s.map Char.toNat)

/--
dotStuff (src/smtpClient.js lines 84-87): the global replacement of
/\r?\n\./ by "\r\n.." scanning left to right.  A dot after a line break
is doubled (and a bare line feed in the match is normalized to CRLF);
every other character passes through.
-/
def dotStuff : List Char → List Char
  | [] => []
  | c :: rest =>
    if c = '\r' then
      match rest with
      | '\n' :: '.' :: rest2 => '\r' :: '\n' :: '.' :: '.' :: dotStuff rest2
      | other => c :: dotStuff other
    else if c = '\n' then
      match rest with
      | '.' :: rest2 => '\r' :: '\n' :: '.' :: '.' :: dotStuff rest2
      | other => c :: dotStuff other
    else c :: dotStuff rest

/--
Line-ending normalization applied to the assembled MIME document
(src/smtpClient.js line 277): the global replacement of /\r?\n/ by CRLF.
-/
def normalizeCRLF : List Char → List Char
  | [] => []
  | '\r' :: '\n' :: rest => '\r' :: '\n' :: normalizeCRLF rest
  | '\n' :: rest => '\r' :: '\n' :: normalizeCRLF rest
  | c :: rest => c :: normalizeCRLF rest

/-- Join a list of strings with a separator (Array.prototype.join). -/
def joinSep (sep : List Char) : List (List Char) → List Char
  | [] => []
  | [x] => x
  | x :: xs => x ++ sep ++ joinSep sep xs

/--
A JavaScript value appearing in the to/cc/bcc positions: absent, a single
string, or an array of strings.
-/
inductive JsArg where
  | undef
  | str (s : List Char)
  | arr (l : List (List Char))
deriving DecidableEq

/-- JavaScript truthiness of such a value (an empty string is falsy). -/
def argTruthy : JsArg → Bool
  | .undef => false
  | .str s => !s.isEmpty
  | .arr _ => true

/--
Array.prototype.concat applied to (x || []) as in src/smtpClient.js
lines 178-181: an absent or empty-string value contributes nothing, a
non-empty string is appended as a single element, an array is appended
elementwise.
-/
def concatArg (acc : List (List Char)) : JsArg → List (List Char)
  | .undef => acc
  | .str s => if s.isEmpty then acc else acc ++ [s]
  | .arr l => acc ++ l

/-- The derived recipient list (src/smtpClient.js lines 178-182). -/
def rcptsOf (toF cc bcc : JsArg) : List (List Char) :=
  concatArg (concatArg (concatArg [] toF) cc) bcc

/--
The header value derived from to/cc/bcc in buildMime (src/smtpClient.js
lines 102-104): arrays are comma-joined, strings pass through, and an
undefined value is interpolated as the text "undefined".
-/
def argToHeaderVal : JsArg → List Char
  | .undef => strL "undefined"
  | .str s => s
  | .arr l => joinSep (strL ", ") l

/-- An attachment (contentType defaults to application/octet-stream). -/
structure Attachment where
  filename : List Char
  contentBase64 : List Char
  contentType : Option (List Char)
deriving DecidableEq

/-- The per-message nondeterministic inputs of buildMime: current date,
the Message-ID token, and the two random boundary tokens. -/
structure Entropy where
  date : List Char
  msgIdTok : List Char
  altTok : List Char
  mixTok : List Char
deriving DecidableEq

/-- The key-value list joined by joinHeaders (src/smtpClient.js 89-93). -/
def joinHeaders (hs : List (List Char × List Char)) : List Char :=
  joinSep crlf (hs.map fun kv => kv.1 ++ strL ": " ++ kv.2)

/-- The message argument of send (src/smtpClient.js line 176). -/
structure Msg where
  fromA : Option (List Char)
  toF : JsArg
  cc : JsArg
  bcc : JsArg
  subject : Option (List Char)
  text : Option (List Char)
  html : Option (List Char)
  attachments : List Attachment
deriving DecidableEq

/-- buildMime (src/smtpClient.js lines 100-162). -/
def buildMime (fromV : List Char) (msg : Msg) (ent : Entropy) : List Char :=
  let toList := argToHeaderVal msg.toF
  let ccList := if argTruthy msg.cc then some (argToHeaderVal msg.cc) else none
  let bccList := if argTruthy msg.bcc then some (argToHeaderVal msg.bcc) else none
  let messageId := strL "<" ++ ent.msgIdTok ++ strL "@local>"
  let headers :=
    [(strL "From", fromV), (strL "To", toList)]
      ++ (match ccList with | some v => [(strL "Cc", v)] | none => [])
      ++ (match bccList with | some v => [(strL "Bcc", v)] | none => [])
      ++ [(strL "Subject", msg.subject.getD []), (strL "Date", ent.date),
          (strL "Message-ID", messageId), (strL "MIME-Version", strL "1.0")]
  let altBoundary := strL "alt_" ++ ent.altTok
  let mixedBoundary := strL "mix_" ++ ent.mixTok
  let textPart :=
    strL "--" ++ altBoundary ++ crlf
      ++ strL "Content-Type: text/plain; charset=\"utf-8\"" ++ crlf
      ++ strL "Content-Transfer-Encoding: 7bit" ++ crlf ++ crlf
      ++ msg.text.getD [] ++ crlf
  let htmlPart :=
    strL "--" ++ altBoundary ++ crlf
      ++ strL "Content-Type: text/html; charset=\"utf-8\"" ++ crlf
      ++ strL "Content-Transfer-Encoding: 7bit" ++ crlf ++ crlf
      ++ msg.html.getD [] ++ crlf
  let altClosing := strL "--" ++ altBoundary ++ strL "--" ++ crlf
  let altBody :=
    strL "Content-Type: multipart/alternative; boundary=\"" ++ altBoundary
      ++ strL "\"" ++ crlf ++ crlf ++ textPart ++ htmlPart ++ altClosing
  if msg.attachments.isEmpty then
    joinHeaders headers ++ crlf ++ altBody
  else
    let attPart := fun (att : Attachment) =>
      strL "--" ++ mixedBoundary ++ crlf
        ++ strL "Content-Type: " ++ att.contentType.getD (strL "application/octet-stream")
        ++ strL "; name=\"" ++ att.filename ++ strL "\"" ++ crlf
        ++ strL "Content-Transfer-Encoding: base64" ++ crlf
        ++ strL "Content-Disposition: attachment; filename=\"" ++ att.filename
        ++ strL "\"" ++ crlf ++ crlf
        ++ att.contentBase64 ++ crlf
    joinHeaders headers ++ crlf
      ++ strL "Content-Type: multipart/mixed; boundary=\"" ++ mixedBoundary
      ++ strL "\"" ++ crlf ++ crlf
      ++ strL "--" ++ mixedBoundary ++ crlf ++ altBody
      ++ (msg.attachments.map attPart).flatten
      ++ strL "--" ++ mixedBoundary ++ strL "--" ++ crlf

/-- Uppercase a character list (String.prototype.toUpperCase on ASCII). -/
def upperL (l : List Char) : List Char := l.map Char.toUpper

/-- Substring test (String.prototype.includes). -/
def hasSub (hay needle : List Char) : Bool :=
  match hay with
  | [] => needle.isEmpty
  | c :: t => needle.isPrefixOf (c :: t) || hasSub t needle

/-- A word character in the sense of the regex word boundary. -/
def isWordChar (c : Char) : Bool := c.isAlphanum || c = '_'

/-- Whether an (uppercased) suffix begins with UTH followed by a word
boundary, completing a match of /AUTH\b/. -/
def checkAuthAt : List Char → Bool
  | 'U' :: 'T' :: 'H' :: rest =>
    match rest with
    | [] => true
    | c :: _ => !isWordChar c
  | _ => false

/-- Scan for /AUTH\b/ anywhere in an uppercased line. -/
def authScan : List Char → Bool
  | [] => false
  | c :: t => (decide (c = 'A') && checkAuthAt t) || authScan t

/-- The test /AUTH\b/i.test(l) of src/smtpClient.js lines 230-231. -/
def hasAuthWord (l : List Char) : Bool := authScan (upperL l)

/-- Capability check for AUTH PLAIN (src/smtpClient.js line 231). -/
def advertisesPlain (lines : List (List Char)) : Bool :=
  lines.any fun l => hasAuthWord l && hasSub (upperL l) (strL "PLAIN")

/-- Capability check for AUTH LOGIN (src/smtpClient.js line 230). -/
def advertisesLogin (lines : List (List Char)) : Bool :=
  lines.any fun l => hasAuthWord l && hasSub (upperL l) (strL "LOGIN")

/-- Capability check for STARTTLS (src/smtpClient.js line 206). -/
def advertisesStartTLS (lines : List (List Char)) : Bool :=
  lines.any fun l => hasSub (upperL l) (strL "STARTTLS")

/-- The constructor configuration (src/smtpClient.js lines 165-174). -/
structure Cfg where
  host : List Char
  port : Nat
  secure : Bool
  user : Option (List Char)
  pass : Option (List Char)
  helo : List Char
deriving DecidableEq

/-- JavaScript truthiness of an optional string field. -/
def optTruthy : Option (List Char) → Bool
  | none => false
  | some s => !s.isEmpty

/-- Falsiness of the from field (the !from test at line 184). -/
def fromFalsy : Option (List Char) → Bool
  | none => true
  | some s => s.isEmpty

/-- Which step of send raised the error (src/smtpClient.js lines 184-282). -/
inductive SendStep where
  | missingFrom
  | noRecipients
  | banner
  | helo
  | starttls
  | ehloAfterTLS
  | authPlainStep
  | authLoginStep
  | authUserStep
  | authPassStep
  | noAuthMech
  | mailFrom
  | rcptTo (addr : List Char)
  | dataStep
  | bodyStep
deriving DecidableEq

/-- Outcome of one send: success, a raised error, or an exhausted
response script (the wait never resolves). -/
inductive Outcome where
  | okDone
  | errAt (e : SendStep)
  | stuckOut
deriving DecidableEq

/-- The session state threaded through send: the remaining scripted
responses and the commands written so far, in order. -/
structure St where
  script : List Response
  writes : List (List Char)
deriving DecidableEq

/-- What one send invocation did: whether a connection was opened, every
write issued to the transport in order, whether the transport was ended,
and the outcome. -/
structure SendOut where
  connected : Bool
  writes : List (List Char)
  ended : Bool
  outcome : Outcome
deriving DecidableEq

/-- Record a socket.write. -/
def wrS (st : St) (s : List Char) : St := ⟨st.script, st.writes ++ [s]⟩

/-- Await one response: the next scripted Response, if any. -/
def awaitS (st : St) : Option (Response × St) :=
  match st.script with
  | [] => none
  | r :: rest => some (r, ⟨rest, st.writes⟩)

/-- A send that raised an error: the transport was opened and not ended. -/
def failOut (st : St) (e : SendStep) : SendOut := ⟨true, st.writes, false, .errAt e⟩

/-- A send whose response script ran out mid-wait. -/
def stuckO (st : St) : SendOut := ⟨true, st.writes, false, .stuckOut⟩

/-- Command strings written by send (src/smtpClient.js lines 196-285). -/
def ehloCmd (helo : List Char) : List Char := strL "EHLO " ++ helo ++ crlf

/-- The HELO fallback command (line 200). -/
def heloCmd (helo : List Char) : List Char := strL "HELO " ++ helo ++ crlf

/-- The STARTTLS command (line 208). -/
def starttlsCmd : List Char := strL "STARTTLS" ++ crlf

/-- The AUTH PLAIN command with its payload (lines 235-236). -/
def authPlainCmd (u p : List Char) : List Char :=
  strL "AUTH PLAIN " ++ base64 ('\x00' :: u ++ '\x00' :: p) ++ crlf

/-- The AUTH LOGIN command (line 240). -/
def authLoginCmd : List Char := strL "AUTH LOGIN" ++ crlf

/-- The MAIL FROM command (line 257). -/
def mailFromCmd (f : List Char) : List Char := strL "MAIL FROM:<" ++ f ++ strL ">" ++ crlf

/-- The RCPT TO command (line 263). -/
def rcptCmd (r : List Char) : List Char := strL "RCPT TO:<" ++ r ++ strL ">" ++ crlf

/-- The DATA command (line 271). -/
def dataCmd : List Char := strL "DATA" ++ crlf

/-- The QUIT command (line 285). -/
def quitCmd : List Char := strL "QUIT" ++ crlf

/-- Step 9 of send (lines 285-289): QUIT, await (code not enforced),
then socket.end(). -/
def quitPhase (st : St) : SendOut :=
  let st := wrS st quitCmd
  match awaitS st with
  | none => stuckO st
  | some (_, st2) => ⟨true, st2.writes, true, .okDone⟩

/-- Step 8 of send (lines 276-282): build, normalize and dot-stuff the
MIME document, write it with the end-of-data terminator, require 250. -/
def bodyPhase (raw : List Char) (st : St) : SendOut :=
  let stuffed := dotStuff (normalizeCRLF raw)
  let st := wrS st (stuffed ++ crlf ++ strL "." ++ crlf)
  match awaitS st with
  | none => stuckO st
  | some (r, st) =>
    if r.code ≠ 250 then failOut st .bodyStep else quitPhase st

/-- Step 7 of send (lines 271-273): DATA, require 354. -/
def dataPhase (raw : List Char) (st : St) : SendOut :=
  let st := wrS st dataCmd
  match awaitS st with
  | none => stuckO st
  | some (r, st) =>
    if r.code ≠ 354 then failOut st .dataStep else bodyPhase raw st

/-- Result of the RCPT TO loop. -/
inductive RcptRes where
  | okR (st : St)
  | failR (addr : List Char) (st : St)
  | stuckR (st : St)
deriving DecidableEq

/-- Step 6 of send (lines 262-268): RCPT TO for each recipient in order,
requiring 250 or 251; the first other reply aborts. -/
def rcptLoop : List (List Char) → St → RcptRes
  | [], st => .okR st
  | r :: rs, st =>
    let st1 := wrS st (rcptCmd r)
    match awaitS st1 with
    | none => .stuckR st1
    | some (resp, st2) =>
      if resp.code ≠ 250 ∧ resp.code ≠ 251 then .failR r st2
      else rcptLoop rs st2

/-- Step 5 of send (lines 257-259) followed by the RCPT loop and the
rest of the transaction. -/
def mailFromPhase (fromV raw : List Char) (recips : List (List Char)) (st : St) : SendOut :=
  let st := wrS st (mailFromCmd fromV)
  match awaitS st with
  | none => stuckO st
  | some (r, st) =>
    if r.code ≠ 250 then failOut st .mailFrom
    else
      match rcptLoop recips st with
      | .stuckR st => stuckO st
      | .failR a st => failOut st (.rcptTo a)
      | .okR st => dataPhase raw st

/-- Step 4 of send (lines 229-254): when credentials are supplied,
prefer AUTH PLAIN, fall back to AUTH LOGIN, and fail when neither is
advertised by the capability lines. -/
def authPhase (cfg : Cfg) (fromV raw : List Char) (recips : List (List Char))
    (capLines : List (List Char)) (st : St) : SendOut :=
  if optTruthy cfg.user && optTruthy cfg.pass then
    let u := cfg.user.getD []
    let p := cfg.pass.getD []
    if advertisesPlain capLines then
      let st := wrS st (authPlainCmd u p)
      match awaitS st with
      | none => stuckO st
      | some (r, st) =>
        if r.code ≠ 235 then failOut st .authPlainStep
        else mailFromPhase fromV raw recips st
    else if advertisesLogin capLines then
      let st := wrS st authLoginCmd
      match awaitS st with
      | none => stuckO st
      | some (r, st) =>
        if r.code ≠ 334 then failOut st .authLoginStep
        else
          let st := wrS st (base64 u ++ crlf)
          match awaitS st with
          | none => stuckO st
          | some (r, st) =>
            if r.code ≠ 334 then failOut st .authUserStep
            else
              let st := wrS st (base64 p ++ crlf)
              match awaitS st with
              | none => stuckO st
              | some (r, st) =>
                if r.code ≠ 235 then failOut st .authPassStep
                else mailFromPhase fromV raw recips st
    else failOut st .noAuthMech
  else mailFromPhase fromV raw recips st

/-- Step 3 of send (lines 205-226): STARTTLS when the transport is not
already TLS and the greet response advertises it; after the upgrade the
session sends EHLO again and the new capability lines are used. -/
def afterGreet (cfg : Cfg) (fromV raw : List Char) (recips : List (List Char))
    (resp : Response) (st : St) : SendOut :=
  if !cfg.secure && advertisesStartTLS resp.lines then
    let st := wrS st starttlsCmd
    match awaitS st with
    | none => stuckO st
    | some (r, st) =>
      if r.code ≠ 220 then failOut st .starttls
      else
        let st := wrS st (ehloCmd cfg.helo)
        match awaitS st with
        | none => stuckO st
        | some (r2, st) =>
          if r2.code ≠ 250 then failOut st .ehloAfterTLS
          else authPhase cfg fromV raw recips r2.lines st
  else authPhase cfg fromV raw recips resp.lines st

/-- Step 2 of send (lines 196-203): EHLO, falling back once to HELO. -/
def greetPhase (cfg : Cfg) (fromV raw : List Char) (recips : List (List Char))
    (st : St) : SendOut :=
  let st := wrS st (ehloCmd cfg.helo)
  match awaitS st with
  | none => stuckO st
  | some (r, st) =>
    if r.code ≠ 250 then
      let st := wrS st (heloCmd cfg.helo)
      match awaitS st with
      | none => stuckO st
      | some (r2, st) =>
        if r2.code ≠ 250 then failOut st .helo
        else afterGreet cfg fromV raw recips r2 st
    else afterGreet cfg fromV raw recips r st

/-- SMTPClient.send (src/smtpClient.js lines 176-290) against a script
of responses: derive the recipient list, validate, connect, await the
banner (code 220), and run the remaining steps. -/
def send (cfg : Cfg) (msg : Msg) (ent : Entropy) (script : List Response) : SendOut :=
  let rcpts := rcptsOf msg.toF msg.cc msg.bcc
  if fromFalsy msg.fromA then ⟨false, [], false, .errAt .missingFrom⟩
  else if rcpts.isEmpty then ⟨false, [], false, .errAt .noRecipients⟩
  else
    let fromV := msg.fromA.getD []
    let raw := buildMime fromV msg ent
    let st : St := ⟨script, []⟩
    match awaitS st with
    | none => stuckO st
    | some (r, st) =>
      if r.code ≠ 220 then failOut st .banner
      else greetPhase cfg fromV raw rcpts st

/--
Listener bookkeeping around the STARTTLS upgrade.  A line reader
subscribes its onData handler with socket.on (src/smtpClient.js line 25)
and its remove() detaches with socket.off (line 32).  The upgrade
(lines 212-221) clears the plaintext socket's data listeners and rebinds
socket.write/on/once/setTimeout/removeAllListeners to the TLS socket,
but never rebinds socket.off, which keeps targeting the plaintext
socket.  The state records the data handlers attached to each socket
and whether socket.on has been rebound.
-/
structure UpgState where
  plainHandlers : List Nat
  securedHandlers : List Nat
  onSecured : Bool
deriving DecidableEq

/-- The session before any reader is attached. -/
def initUpg : UpgState := ⟨[], [], false⟩

/-- createLineReader's subscription: socket.on("data", onData), where
socket.on is the TLS socket's after the upgrade (line 217). -/
def attachReader (st : UpgState) (id : Nat) : UpgState :=
  if st.onSecured then { st with securedHandlers := st.securedHandlers ++ [id] }
  else { st with plainHandlers := st.plainHandlers ++ [id] }

/-- The reader's remove(): socket.off("data", onData) (line 32); off is
never rebound, so it always detaches from the plaintext socket. -/
def removeReader (st : UpgState) (id : Nat) : UpgState :=
  { st with plainHandlers := st.plainHandlers.filter (fun h => decide (h ≠ id)) }

/-- The STARTTLS upgrade (lines 212-221): removeAllListeners("data") on
the plaintext socket, then rebind socket.on to the TLS socket. -/
def upgradeTLS (st : UpgState) : UpgState :=
  { st with plainHandlers := [], onSecured := true }

/-- The lines a given reader emits to its listeners when a chunk is
delivered on one of the transports (secured or plaintext): its onData
runs exactly when it is attached to that transport. -/
def emittedLines (st : UpgState) (onSecuredData : Bool) (id : Nat) (chunk : List Char) :
    List (List Char) :=
  if id ∈ (if onSecuredData then st.securedHandlers else st.plainHandlers) then
    (drain chunk).1
  else []

/-- Whether a character list begins with a dot. -/
def headIsDot : List Char → Bool
  | [] => false
  | c :: _ => decide (c = '.')

/-- A line free of carriage returns and line feeds. -/
def clean : List Char → Bool
  | [] => true
  | c :: l => decide (c ≠ '\r') && decide (c ≠ '\n') && clean l

/-- The per-line statement of the dot-stuffing contract: a line starting
with a dot gains a second dot. -/
def stuffLine (l : List Char) : List Char :=
  if headIsDot l then '.' :: l else l

/-- The continuation lines of a CRLF-joined document: each preceded by
one CRLF. -/
def tailDoc : List (List Char) → List Char
  | [] => []
  | l :: ls => crlf ++ l ++ tailDoc ls

/-- A CRLF-normalized document assembled from its lines. -/
def docOf : List (List Char) → List Char
  | [] => []
  | l :: ls => l ++ tailDoc ls

/-- Per-line dot stuffing of a document's lines, leaving the first line
untouched. -/
def stuffDoc : List (List Char) → List (List Char)
  | [] => []
  | l :: ls => l :: ls.map stuffLine

/-- A drain that produced no line leaves the buffer untouched. -/
theorem drain_fst_nil : ∀ (a : List Char), (drain a).1 = [] → (drain a).2 = a
  | [], _ => rfl
  | [_], _ => rfl
  | c1 :: c2 :: rest, h => by
    by_cases hc : c1 = '\r' ∧ c2 = '\n'
    · exfalso
      obtain ⟨h1, h2⟩ := hc
      subst h1; subst h2
      simp [drain] at h
    · have ih := drain_fst_nil (c2 :: rest)
      simp only [drain, if_neg hc] at h ⊢
      cases hq : (drain (c2 :: rest)).1 with
      | nil =>
        simp only [hq]
        exact congrArg (c1 :: ·) (ih hq)
      | cons l ls => simp [hq] at h

/-- Draining a concatenation equals draining the first part and then
draining its leftover buffer extended by the second part. -/
theorem drain_append : ∀ (a b : List Char),
    drain (a ++ b)
      = ((drain a).1 ++ (drain ((drain a).2 ++ b)).1, (drain ((drain a).2 ++ b)).2)
  | [], b => by simp [drain]
  | [c], b => by simp [drain]
  | c1 :: c2 :: rest, b => by
    by_cases hc : c1 = '\r' ∧ c2 = '\n'
    · obtain ⟨h1, h2⟩ := hc
      subst h1; subst h2
      have ih := drain_append rest b
      simp [drain, ih]
    · have ih := drain_append (c2 :: rest) b
      cases hq : (drain (c2 :: rest)).1 with
      | nil =>
        have h2 : (drain (c2 :: rest)).2 = c2 :: rest := drain_fst_nil _ hq
        have hr : drain (c1 :: c2 :: rest) = ([], c1 :: c2 :: rest) := by
          simp [drain, if_neg hc, hq, h2]
        rw [hr]
        simp
      | cons l ls =>
        have hr : drain (c1 :: c2 :: rest) = ((c1 :: l) :: ls, (drain (c2 :: rest)).2) := by
          simp [drain, if_neg hc, hq]
        have hl : drain ((c1 :: c2 :: rest) ++ b)
            = ((c1 :: l) :: (ls ++ (drain ((drain (c2 :: rest)).2 ++ b)).1),
               (drain ((drain (c2 :: rest)).2 ++ b)).2) := by
          rw [List.cons_append] at ih
          simp only [List.cons_append, drain, if_neg hc, List.append_eq]
          rw [ih]
          simp [hq]
        rw [hl, hr]
        simp

/-- The leftover buffer of a drain contains no complete line. -/
theorem drain_snd_idem : ∀ (a : List Char), drain ((drain a).2) = ([], (drain a).2)
  | [] => rfl
  | [_] => rfl
  | c1 :: c2 :: rest => by
    by_cases hc : c1 = '\r' ∧ c2 = '\n'
    · obtain ⟨h1, h2⟩ := hc
      subst h1; subst h2
      have ih := drain_snd_idem rest
      simp only [drain]
      simpa using ih
    · cases hq : (drain (c2 :: rest)).1 with
      | nil =>
        have h2 : (drain (c2 :: rest)).2 = c2 :: rest := drain_fst_nil _ hq
        have hr : drain (c1 :: c2 :: rest) = ([], c1 :: c2 :: rest) := by
          simp [drain, if_neg hc, hq, h2]
        rw [hr]
        exact hr
      | cons l ls =>
        have ih := drain_snd_idem (c2 :: rest)
        have hr : drain (c1 :: c2 :: rest) = ((c1 :: l) :: ls, (drain (c2 :: rest)).2) := by
          simp [drain, if_neg hc, hq]
        rw [hr]
        exact ih

/-- A line-reader run from a drained buffer equals one drain of the
whole remaining stream. -/
theorem lineReaderRun_drain : ∀ (cs : List (List Char)) (buf : List Char),
    drain buf = ([], buf) → lineReaderRun buf cs = drain (buf ++ cs.flatten)
  | [], buf, h => by simp [lineReaderRun, h]
  | c :: cs, buf, _ => by
    have ih := lineReaderRun_drain cs (drain (buf ++ c)).2 (drain_snd_idem (buf ++ c))
    simp only [lineReaderRun, List.flatten_cons]
    rw [ih]
    have happ := drain_append (buf ++ c) cs.flatten
    rw [← List.append_assoc, happ]

/--
Claim C5: for every byte stream and every way of splitting it into a
sequence of chunks, feeding the chunks to a line reader in order emits
exactly the same ordered sequence of CRLF-delimited lines (without the
CRLF) as feeding the whole stream as one chunk, including when the CRLF
straddles a chunk boundary; the retained buffers agree as well.
-/
theorem lineReader_chunk_invariance (chunks : List (List Char)) :
    lineReaderRun [] chunks = lineReaderRun [] [chunks.flatten] := by
  have h1 : lineReaderRun [] chunks = drain chunks.flatten := by
    simpa using lineReaderRun_drain chunks [] rfl
  have h2 : lineReaderRun [] [chunks.flatten] = drain chunks.flatten := by
    simpa using lineReaderRun_drain [chunks.flatten] [] rfl
  rw [h1, h2]

/-- A character that is neither CR nor LF passes through dotStuff. -/
theorem dotStuff_other (c : Char) (rest : List Char) (h1 : c ≠ '\r') (h2 : c ≠ '\n') :
    dotStuff (c :: rest) = c :: dotStuff rest := by
  rw [dotStuff.eq_def]
  simp [h1, h2]

/-- A CRLF followed by a dot is rewritten to CRLF followed by two dots. -/
theorem dotStuff_crlf_dot (rest : List Char) :
    dotStuff ('\r' :: '\n' :: '.' :: rest) = '\r' :: '\n' :: '.' :: '.' :: dotStuff rest := rfl

/-- A line feed not followed by a dot passes through dotStuff. -/
theorem dotStuff_lf_nodot (d : Char) (r2 : List Char) (hd : d ≠ '.') :
    dotStuff ('\n' :: d :: r2) = '\n' :: dotStuff (d :: r2) := by
  rw [dotStuff.eq_def]
  simp only [reduceIte]
  split
  · next h => exact absurd h (by decide)
  · split
    · next rest2 heq =>
      exfalso
      injection heq with hh _
      exact hd hh
    · rfl

/-- A CRLF not followed by a dot passes through dotStuff. -/
theorem dotStuff_crlf_nodot (rest : List Char) (h : headIsDot rest = false) :
    dotStuff ('\r' :: '\n' :: rest) = '\r' :: '\n' :: dotStuff rest := by
  cases rest with
  | nil => rfl
  | cons d r2 =>
    have hd : d ≠ '.' := by
      intro hdd
      subst hdd
      simp [headIsDot] at h
    rw [dotStuff.eq_def]
    simp only [reduceIte]
    split
    · next rest2 heq =>
      exfalso
      injection heq with _ htl
      injection htl with hh _
      exact hd hh
    · rw [dotStuff_lf_nodot d r2 hd]

/-- dotStuff leaves a clean segment untouched. -/
theorem dotStuff_clean_append : ∀ (l xs : List Char), clean l = true →
    dotStuff (l ++ xs) = l ++ dotStuff xs
  | [], _, _ => rfl
  | c :: l, xs, h => by
    have hc : (c ≠ '\r' ∧ c ≠ '\n') ∧ clean l = true := by simpa [clean] using h
    rw [List.cons_append, dotStuff_other c _ hc.1.1 hc.1.2,
        dotStuff_clean_append l xs hc.2]
    simp

/-- The CRLF-prefixed continuation block never begins with a dot. -/
theorem headIsDot_tailDoc (ls : List (List Char)) : headIsDot (tailDoc ls) = false := by
  cases ls with
  | nil => rfl
  | cons l ls => rfl

/-- dotStuff on the continuation lines of a clean document stuffs every
line that begins with a dot. -/
theorem dotStuff_tailDoc : ∀ (ls : List (List Char)), (∀ l ∈ ls, clean l = true) →
    dotStuff (tailDoc ls) = tailDoc (ls.map stuffLine)
  | [], _ => rfl
  | l :: ls, h => by
    have hl : clean l = true := h l (by simp)
    have hls : ∀ x ∈ ls, clean x = true := fun x hx => h x (by simp [hx])
    have ih := dotStuff_tailDoc ls hls
    by_cases hd : headIsDot l = true
    · cases l with
      | nil => simp [headIsDot] at hd
      | cons c l' =>
        have hc : c = '.' := by simpa [headIsDot] using hd
        subst hc
        have hl' : clean l' = true := by
          have := (show (('.' ≠ '\r' ∧ '.' ≠ '\n') ∧ clean l' = true) by simpa [clean] using hl)
          exact this.2
        show dotStuff ('\r' :: '\n' :: '.' :: (l' ++ tailDoc ls))
            = tailDoc ((('.' :: l') :: ls).map stuffLine)
        rw [dotStuff_crlf_dot, dotStuff_clean_append l' _ hl', ih]
        simp [tailDoc, stuffLine, headIsDot, crlf]
    · have hd' : headIsDot l = false := by simpa using hd
      have hcat : headIsDot (l ++ tailDoc ls) = false := by
        cases l with
        | nil => simpa using headIsDot_tailDoc ls
        | cons c l' => simpa [headIsDot] using hd'
      show dotStuff ('\r' :: '\n' :: (l ++ tailDoc ls)) = tailDoc ((l :: ls).map stuffLine)
      rw [dotStuff_crlf_nodot _ hcat, dotStuff_clean_append l _ hl, ih]
      simp [tailDoc, stuffLine, hd', crlf]

/--
Claim C2 (amended): for every CRLF-normalized document given by its
lines, dotStuff prepends a second dot exactly to the lines that begin
with a dot and are preceded by a line break; the first line of the
document is left unchanged even when it begins with a dot, and lines not
starting with a dot are unchanged.
-/
theorem dotStuff_stuffs_lines_after_break (ls : List (List Char))
    (h : ∀ l ∈ ls, clean l = true) :
    dotStuff (docOf ls) = docOf (stuffDoc ls) := by
  cases ls with
  | nil => rfl
  | cons l ls =>
    have hl : clean l = true := h l (by simp)
    have hls : ∀ x ∈ ls, clean x = true := fun x hx => h x (by simp [hx])
    show dotStuff (l ++ tailDoc ls) = docOf (l :: ls.map stuffLine)
    rw [dotStuff_clean_append l _ hl, dotStuff_tailDoc ls hls]
    rfl

/-- Witness for the amended claim C2, including the spec's example: a
body containing CRLF followed by ".Hi" gains the second dot. -/
theorem dotStuff_stuffs_lines_after_break_witness :
    dotStuff (docOf [strL "A", strL ".Hi"]) = docOf (stuffDoc [strL "A", strL ".Hi"])
      ∧ dotStuff (strL "A\r\n.Hi") = strL "A\r\n..Hi"
      ∧ dotStuff (strL "x\r\n.\r\ny") = strL "x\r\n..\r\ny" :=
  ⟨dotStuff_stuffs_lines_after_break [strL "A", strL ".Hi"] (by decide),
   by decide, by decide⟩

/-- Counterexample to claim C2 as stated: the document ".Hi" consists of
a single line beginning with a dot, yet dotStuff leaves it unchanged
instead of producing "..Hi". -/
theorem dotStuff_first_line_counterexample :
    dotStuff (strL ".Hi") = strL ".Hi" ∧ dotStuff (strL ".Hi") ≠ strL "..Hi" := by
  constructor
  · decide
  · decide

/-- The code variable of readResponse does not influence the result. -/
theorem respStep_code_irrel : ∀ (ls acc : List (List Char)) (c1 c2 : Option Nat),
    respStep acc c1 ls = respStep acc c2 ls
  | [], _, _, _ => rfl
  | l :: rest, acc, c1, c2 => by
    cases hp : parseLine l with
    | none =>
      simp only [respStep, hp]
      exact respStep_code_irrel rest (acc ++ [l]) c1 c2
    | some t => simp only [respStep, hp]

/-- Non-terminal lines are consumed into the accumulator without
resolving the wait. -/
theorem respStep_nonterm_append :
    ∀ (pre : List (List Char)), (∀ l ∈ pre, isTermB l = false) →
    ∀ (acc : List (List Char)) (code : Option Nat) (rest : List (List Char)),
    respStep acc code (pre ++ rest) = respStep (acc ++ pre) none rest
  | [], _, acc, code, rest => by
    simpa using respStep_code_irrel rest acc code none
  | l :: pre, h, acc, code, rest => by
    have hl : isTermB l = false := h l (by simp)
    have hpre : ∀ x ∈ pre, isTermB x = false := fun x hx => h x (by simp [hx])
    cases hp : parseLine l with
    | none =>
      simp only [List.cons_append, respStep, hp, List.append_eq]
      rw [respStep_nonterm_append pre hpre (acc ++ [l]) code rest]
      simp
    | some t =>
      obtain ⟨c, sep, r⟩ := t
      have hs : sep ≠ ' ' := by
        intro hss
        subst hss
        simp [isTermB, termCode, hp] at hl
      simp only [List.cons_append, respStep, hp, if_neg hs, List.append_eq]
      rw [respStep_nonterm_append pre hpre (acc ++ [l]) (some c) rest]
      simp

/-- A terminal line resolves at once with its own code and the
accumulated lines. -/
theorem respStep_terminal (t : List Char) (c : Nat) (ht : termCode t = some c)
    (acc : List (List Char)) (code : Option Nat) (rest : List (List Char)) :
    respStep acc code (t :: rest) = some ⟨c, acc ++ [t]⟩ := by
  cases hp : parseLine t with
  | none => simp [termCode, hp] at ht
  | some tr =>
    obtain ⟨c', sep, r⟩ := tr
    by_cases hs : sep = ' '
    · subst hs
      have hc : c' = c := by simpa [termCode, hp] using ht
      subst hc
      simp [respStep, hp]
    · simp [termCode, hp, hs] at ht

/-- Resolution of one response wait: non-terminal lines accumulate, the
first terminal line resolves with its code and the arrival-ordered line
set, and without a terminal line the wait never resolves. -/
theorem processLines_split (pre : List (List Char)) (hpre : ∀ l ∈ pre, isTermB l = false)
    (t : List Char) (c : Nat) (ht : termCode t = some c) (rest : List (List Char)) :
    processLines (pre ++ t :: rest) = some ⟨c, pre ++ [t]⟩ ∧ processLines pre = none := by
  constructor
  · rw [processLines, respStep_nonterm_append pre hpre [] none (t :: rest),
        respStep_terminal t c ht]
    simp
  · have h := respStep_nonterm_append pre hpre [] none []
    simpa [processLines] using h

/--
Claim C6: awaiting one response resolves only when a well-formed line
whose separator is a space arrives; the resolved value's code equals the
numeric prefix of that terminal (last consumed) line and its lines field
is every line observed for the response in arrival order; any stream of
lines with no terminal line resolves nothing.
-/
theorem readResponse_resolution (pre : List (List Char))
    (hpre : ∀ l ∈ pre, isTermB l = false)
    (t : List Char) (c : Nat) (ht : termCode t = some c) (rest : List (List Char)) :
    processLines (pre ++ t :: rest) = some ⟨c, pre ++ [t]⟩ ∧ processLines pre = none :=
  processLines_split pre hpre t c ht rest

/-- Witness for claim C6: the spec's example 250-first / 250-second /
250 third resolves to code 250 with all three lines only after the third
line arrives, with no earlier resolution. -/
theorem readResponse_resolution_witness :
    processLines [strL "250-first", strL "250-second", strL "250 third"]
        = some ⟨250, [strL "250-first", strL "250-second", strL "250 third"]⟩
      ∧ processLines [strL "250-first", strL "250-second"] = none :=
  readResponse_resolution [strL "250-first", strL "250-second"] (by decide)
    (strL "250 third") 250 (by decide) []

/--
Claim C3 (amended): while awaiting one response, every received line,
malformed or not, is appended to the response's line set in arrival
order — also when no well-formed line has been seen yet; a malformed
line never resolves the wait.
-/
theorem readResponse_malformed_retained (g : List Char) (hg : parseLine g = none)
    (pre : List (List Char)) (hpre : ∀ l ∈ pre, isTermB l = false)
    (t : List Char) (c : Nat) (ht : termCode t = some c) (rest : List (List Char)) :
    processLines (g :: (pre ++ t :: rest)) = some ⟨c, g :: (pre ++ [t])⟩
      ∧ processLines (g :: pre) = none := by
  have hgt : isTermB g = false := by simp [isTermB, termCode, hg]
  have hpre' : ∀ l ∈ g :: pre, isTermB l = false := by
    intro l hl
    rcases List.mem_cons.mp hl with h | h
    · subst h; exact hgt
    · exact hpre l h
  have main := processLines_split (g :: pre) hpre' t c ht rest
  simpa using main

/-- Witness for the amended claim C3. -/
theorem readResponse_malformed_retained_witness :
    processLines [strL "** banner noise **", strL "250-cap", strL "250 done"]
        = some ⟨250, [strL "** banner noise **", strL "250-cap", strL "250 done"]⟩
      ∧ processLines [strL "** banner noise **", strL "250-cap"] = none :=
  readResponse_malformed_retained (strL "** banner noise **") (by decide)
    [strL "250-cap"] (by decide) (strL "250 done") 250 (by decide) []

/-- Counterexample to claim C3 as stated: a malformed line arriving
before any well-formed line is nevertheless appended to the response's
line set. -/
theorem malformed_line_appended_counterexample :
    parseLine (strL "garbage") = none
      ∧ processLines [strL "garbage", strL "250 ok"]
          = some ⟨250, [strL "garbage", strL "250 ok"]⟩ := by
  constructor
  · decide
  · decide

/--
Claim C1 (behavior of the code at the failing input): a 550 reply to the
second of three RCPT TO commands makes send raise the RCPT error before
DATA is written, but the transport is neither closed nor destroyed on
this failure path — the connection was opened and ended remains false.
-/
theorem send_rcpt_failure_leaves_transport_open :
    send ⟨strL "mail.example.com", 587, true, none, none, strL "localhost"⟩
        ⟨some (strL "a@x"), .arr [strL "r1@x", strL "r2@x", strL "r3@x"], .undef, .undef,
          none, none, none, []⟩
        ⟨[], [], [], []⟩
        [⟨220, [strL "220 hi"]⟩, ⟨250, [strL "250 ok"]⟩, ⟨250, []⟩, ⟨250, []⟩,
         ⟨550, [strL "550 no"]⟩]
      = ⟨true,
         [ehloCmd (strL "localhost"), mailFromCmd (strL "a@x"),
          rcptCmd (strL "r1@x"), rcptCmd (strL "r2@x")],
         false, .errAt (.rcptTo (strL "r2@x"))⟩ := by
  decide

/--
Claim C4 (behavior of the code at the failing input): before the
STARTTLS upgrade a detached reader stops emitting, but a reader attached
after the upgrade keeps emitting lines for data delivered by the secured
transport even after its remove() was invoked, because socket.off still
targets the plaintext socket.
-/
theorem detach_after_upgrade_still_emits :
    emittedLines (removeReader (attachReader (upgradeTLS initUpg) 1) 1) true 1
        (strL "250 ok\r\n") = [strL "250 ok"]
      ∧ emittedLines (removeReader (attachReader initUpg 1) 1) false 1
          (strL "250 ok\r\n") = [] := by
  constructor
  · decide
  · decide

/--
Claim C9: when from is missing (or empty) or the derived recipient list
is empty, send raises a validation error before any network activity: no
connection is opened and nothing is written to any transport.
-/
theorem validation_before_io (cfg : Cfg) (msg : Msg) (ent : Entropy) (script : List Response)
    (h : fromFalsy msg.fromA = true ∨ rcptsOf msg.toF msg.cc msg.bcc = []) :
    (send cfg msg ent script).connected = false
      ∧ (send cfg msg ent script).writes = []
      ∧ ((send cfg msg ent script).outcome = .errAt .missingFrom
          ∨ (send cfg msg ent script).outcome = .errAt .noRecipients) := by
  rcases h with h | h
  · simp [send, h]
  · by_cases hf : fromFalsy msg.fromA = true
    · simp [send, hf]
    · have hf' : fromFalsy msg.fromA = false := by simpa using hf
      simp [send, hf', h]

/-- Witness for claim C9: a message without a from field. -/
theorem validation_before_io_witness :
    (send ⟨strL "h", 587, false, none, none, strL "me"⟩
          ⟨none, .arr [strL "r@x"], .undef, .undef, none, none, none, []⟩
          ⟨[], [], [], []⟩ []).connected = false
      ∧ (send ⟨strL "h", 587, false, none, none, strL "me"⟩
            ⟨none, .arr [strL "r@x"], .undef, .undef, none, none, none, []⟩
            ⟨[], [], [], []⟩ []).writes = []
      ∧ ((send ⟨strL "h", 587, false, none, none, strL "me"⟩
              ⟨none, .arr [strL "r@x"], .undef, .undef, none, none, none, []⟩
              ⟨[], [], [], []⟩ []).outcome = .errAt .missingFrom
          ∨ (send ⟨strL "h", 587, false, none, none, strL "me"⟩
                ⟨none, .arr [strL "r@x"], .undef, .undef, none, none, none, []⟩
                ⟨[], [], [], []⟩ []).outcome = .errAt .noRecipients) :=
  validation_before_io ⟨strL "h", 587, false, none, none, strL "me"⟩
    ⟨none, .arr [strL "r@x"], .undef, .undef, none, none, none, []⟩
    ⟨[], [], [], []⟩ [] (Or.inl rfl)

/--
Claim C7: with credentials supplied, authentication selects PLAIN
whenever the capability lines advertise PLAIN (in particular when both
PLAIN and LOGIN are advertised), selects LOGIN when only LOGIN is
advertised, and raises the no-supported-AUTH-mechanism error without
sending any AUTH command when neither is advertised.
-/
theorem auth_mechanism_selection (u p f : List Char)
    (hu : u ≠ []) (hp : p ≠ []) (hf : f ≠ [])
    (caps : List (List Char)) (ent : Entropy) :
    (advertisesPlain caps = true →
        send ⟨strL "h", 587, true, some u, some p, strL "me"⟩
            ⟨some f, .arr [strL "r@x"], .undef, .undef, none, none, none, []⟩ ent
            [⟨220, []⟩, ⟨250, caps⟩]
          = ⟨true, [ehloCmd (strL "me"), authPlainCmd u p], false, .stuckOut⟩)
      ∧ (advertisesPlain caps = false → advertisesLogin caps = true →
          send ⟨strL "h", 587, true, some u, some p, strL "me"⟩
              ⟨some f, .arr [strL "r@x"], .undef, .undef, none, none, none, []⟩ ent
              [⟨220, []⟩, ⟨250, caps⟩]
            = ⟨true, [ehloCmd (strL "me"), authLoginCmd], false, .stuckOut⟩)
      ∧ (advertisesPlain caps = false → advertisesLogin caps = false →
          send ⟨strL "h", 587, true, some u, some p, strL "me"⟩
              ⟨some f, .arr [strL "r@x"], .undef, .undef, none, none, none, []⟩ ent
              [⟨220, []⟩, ⟨250, caps⟩]
            = ⟨true, [ehloCmd (strL "me")], false, .errAt .noAuthMech⟩) := by
  have hf' : fromFalsy (some f) = false := by
    cases f with
    | nil => exact absurd rfl hf
    | cons a l => rfl
  have hu' : optTruthy (some u) = true := by
    cases u with
    | nil => exact absurd rfl hu
    | cons a l => rfl
  have hp' : optTruthy (some p) = true := by
    cases p with
    | nil => exact absurd rfl hp
    | cons a l => rfl
  refine ⟨fun hpl => ?_, fun hpl hlo => ?_, fun hpl hlo => ?_⟩
  · simp [send, greetPhase, afterGreet, authPhase, awaitS, wrS, stuckO, failOut,
      hf', hu', hp', hpl, rcptsOf, concatArg]
  · simp [send, greetPhase, afterGreet, authPhase, awaitS, wrS, stuckO, failOut,
      hf', hu', hp', hpl, hlo, rcptsOf, concatArg]
  · simp [send, greetPhase, afterGreet, authPhase, awaitS, wrS, stuckO, failOut,
      hf', hu', hp', hpl, hlo, rcptsOf, concatArg]

/-- Witness for claim C7, discharging each branch on concrete
capability lines. -/
theorem auth_mechanism_selection_witness :
    send ⟨strL "h", 587, true, some (strL "u"), some (strL "p"), strL "me"⟩
        ⟨some (strL "f@x"), .arr [strL "r@x"], .undef, .undef, none, none, none, []⟩
        ⟨[], [], [], []⟩ [⟨220, []⟩, ⟨250, [strL "250 AUTH PLAIN LOGIN"]⟩]
      = ⟨true, [ehloCmd (strL "me"), authPlainCmd (strL "u") (strL "p")], false, .stuckOut⟩
    ∧ send ⟨strL "h", 587, true, some (strL "u"), some (strL "p"), strL "me"⟩
        ⟨some (strL "f@x"), .arr [strL "r@x"], .undef, .undef, none, none, none, []⟩
        ⟨[], [], [], []⟩ [⟨220, []⟩, ⟨250, [strL "250 AUTH LOGIN"]⟩]
      = ⟨true, [ehloCmd (strL "me"), authLoginCmd], false, .stuckOut⟩
    ∧ send ⟨strL "h", 587, true, some (strL "u"), some (strL "p"), strL "me"⟩
        ⟨some (strL "f@x"), .arr [strL "r@x"], .undef, .undef, none, none, none, []⟩
        ⟨[], [], [], []⟩ [⟨220, []⟩, ⟨250, [strL "250 SIZE 35882577"]⟩]
      = ⟨true, [ehloCmd (strL "me")], false, .errAt .noAuthMech⟩ :=
  ⟨(auth_mechanism_selection (strL "u") (strL "p") (strL "f@x")
      (by decide) (by decide) (by decide) [strL "250 AUTH PLAIN LOGIN"] ⟨[], [], [], []⟩).1
      (by decide),
   (auth_mechanism_selection (strL "u") (strL "p") (strL "f@x")
      (by decide) (by decide) (by decide) [strL "250 AUTH LOGIN"] ⟨[], [], [], []⟩).2.1
      (by decide) (by decide),
   (auth_mechanism_selection (strL "u") (strL "p") (strL "f@x")
      (by decide) (by decide) (by decide) [strL "250 SIZE 35882577"] ⟨[], [], [], []⟩).2.2
      (by decide) (by decide)⟩

/-- An RCPT TO command is never the DATA command. -/
theorem rcptCmd_ne_dataCmd (x : List Char) : rcptCmd x ≠ dataCmd := by
  intro h
  have h1 : (rcptCmd x).head? = some 'R' := rfl
  have h2 : dataCmd.head? = some 'D' := rfl
  rw [h] at h1
  exact absurd (h1.symm.trans h2) (by decide)

/-- An EHLO command is never the DATA command. -/
theorem ehloCmd_ne_dataCmd (h : List Char) : ehloCmd h ≠ dataCmd := by
  intro heq
  have h1 : (ehloCmd h).head? = some 'E' := rfl
  have h2 : dataCmd.head? = some 'D' := rfl
  rw [heq] at h1
  exact absurd (h1.symm.trans h2) (by decide)

/-- A MAIL FROM command is never the DATA command. -/
theorem mailFromCmd_ne_dataCmd (f : List Char) : mailFromCmd f ≠ dataCmd := by
  intro heq
  have h1 : (mailFromCmd f).head? = some 'M' := rfl
  have h2 : dataCmd.head? = some 'D' := rfl
  rw [heq] at h1
  exact absurd (h1.symm.trans h2) (by decide)

/-- The RCPT TO loop of send: after any number of accepted recipients
(codes 250 or 251), the first recipient whose reply is neither 250 nor
251 stops the loop with a failure carrying that recipient, having
written exactly the RCPT TO commands up to and including it. -/
theorem rcptLoop_first_failure :
    ∀ (okAddrs : List (List Char)) (okResps : List Response),
    okResps.length = okAddrs.length →
    (∀ r ∈ okResps, r.code = 250 ∨ r.code = 251) →
    ∀ (badAddr : List Char) (restAddrs : List (List Char)) (bad : Response),
    bad.code ≠ 250 → bad.code ≠ 251 →
    ∀ (tailScript : List Response) (w : List (List Char)),
    rcptLoop (okAddrs ++ badAddr :: restAddrs) ⟨okResps ++ bad :: tailScript, w⟩
      = .failR badAddr ⟨tailScript, w ++ (okAddrs ++ [badAddr]).map rcptCmd⟩
  | [], okResps, hlen, _, badAddr, restAddrs, bad, hb1, hb2, tailScript, w => by
    have hnil : okResps = [] := List.length_eq_zero.mp hlen
    subst hnil
    simp [rcptLoop, wrS, awaitS, hb1, hb2]
  | a :: as, okResps, hlen, hok, badAddr, restAddrs, bad, hb1, hb2, tailScript, w => by
    cases okResps with
    | nil => simp at hlen
    | cons r rs =>
      have hr : r.code = 250 ∨ r.code = 251 := hok r (by simp)
      have hcond : ¬(r.code ≠ 250 ∧ r.code ≠ 251) := by
        rcases hr with h | h
        · simp [h]
        · simp [h]
      have hrs : ∀ x ∈ rs, x.code = 250 ∨ x.code = 251 := fun x hx => hok x (by simp [hx])
      have hlen' : rs.length = as.length := by simpa using hlen
      have ih := rcptLoop_first_failure as rs hlen' hrs badAddr restAddrs bad hb1 hb2
        tailScript (w ++ [rcptCmd a])
      simp only [List.cons_append, rcptLoop, wrS, awaitS, if_neg hcond, List.append_eq]
      rw [ih]
      simp

/--
Claim C8: for each recipient of the derived list in order, send issues
RCPT TO with the recipient's address and requires reply code 250 or 251;
the first recipient whose reply is neither aborts the whole send with
the RCPT error, the DATA command is never written, and no RCPT TO is
issued for any later recipient — the writes are exactly EHLO, MAIL FROM
and the RCPT TO commands up to and including the failing one.
-/
theorem rcpt_first_failure_aborts (f : List Char) (hf : f ≠ [])
    (okAddrs : List (List Char)) (okResps : List Response)
    (hlen : okResps.length = okAddrs.length)
    (hok : ∀ r ∈ okResps, r.code = 250 ∨ r.code = 251)
    (badAddr : List Char) (restAddrs : List (List Char)) (bad : Response)
    (hb1 : bad.code ≠ 250) (hb2 : bad.code ≠ 251)
    (tailScript : List Response) (ent : Entropy) :
    send ⟨strL "h", 587, true, none, none, strL "me"⟩
        ⟨some f, .arr (okAddrs ++ badAddr :: restAddrs), .undef, .undef, none, none, none, []⟩
        ent (⟨220, []⟩ :: ⟨250, []⟩ :: ⟨250, []⟩ :: (okResps ++ bad :: tailScript))
      = ⟨true,
         [ehloCmd (strL "me"), mailFromCmd f] ++ (okAddrs ++ [badAddr]).map rcptCmd,
         false, .errAt (.rcptTo badAddr)⟩
      ∧ dataCmd ∉ [ehloCmd (strL "me"), mailFromCmd f] ++ (okAddrs ++ [badAddr]).map rcptCmd := by
  have hf' : fromFalsy (some f) = false := by
    cases f with
    | nil => exact absurd rfl hf
    | cons a l => rfl
  have hne : (okAddrs ++ badAddr :: restAddrs).isEmpty = false := by
    cases okAddrs with
    | nil => rfl
    | cons a l => rfl
  have hloop := rcptLoop_first_failure okAddrs okResps hlen hok badAddr restAddrs bad hb1 hb2
    tailScript [ehloCmd (strL "me"), mailFromCmd f]
  constructor
  · simp only [send, greetPhase, afterGreet, authPhase, mailFromPhase, awaitS, wrS,
      stuckO, failOut, hf', hne, rcptsOf, concatArg, optTruthy]
    simp only [List.nil_append]
    simp [hloop, failOut]
  · intro hmem
    rcases List.mem_append.mp hmem with hm | hm
    · simp only [List.mem_cons, List.not_mem_nil, or_false] at hm
      rcases hm with hm | hm
      · exact ehloCmd_ne_dataCmd (strL "me") hm.symm
      · exact mailFromCmd_ne_dataCmd f hm.symm
    · rcases List.mem_map.mp hm with ⟨x, _, hx⟩
      exact rcptCmd_ne_dataCmd x hx

/-- Witness for claim C8: three recipients, the second refused with 550;
only the first two RCPT TO commands are written and DATA never is. -/
theorem rcpt_first_failure_aborts_witness :
    send ⟨strL "h", 587, true, none, none, strL "me"⟩
        ⟨some (strL "a@x"), .arr ([strL "r1@x"] ++ strL "r2@x" :: [strL "r3@x"]),
          .undef, .undef, none, none, none, []⟩
        ⟨[], [], [], []⟩
        (⟨220, []⟩ :: ⟨250, []⟩ :: ⟨250, []⟩ :: ([⟨250, []⟩] ++ ⟨550, [strL "550 no"]⟩ :: []))
      = ⟨true,
         [ehloCmd (strL "me"), mailFromCmd (strL "a@x")]
           ++ ([strL "r1@x"] ++ [strL "r2@x"]).map rcptCmd,
         false, .errAt (.rcptTo (strL "r2@x"))⟩
      ∧ dataCmd ∉ [ehloCmd (strL "me"), mailFromCmd (strL "a@x")]
          ++ ([strL "r1@x"] ++ [strL "r2@x"]).map rcptCmd :=
  rcpt_first_failure_aborts (strL "a@x") (by decide)
    [strL "r1@x"] [⟨250, []⟩] (by decide)
    (by intro r hr; rw [List.mem_singleton.mp hr]; exact Or.inl rfl)
    (strL "r2@x") [strL "r3@x"] ⟨550, [strL "550 no"]⟩ (by decide) (by decide)
    [] ⟨[], [], [], []⟩

/-- A single string and the singleton array produce the same header
value. -/
theorem argToHeaderVal_single (a : List Char) :
    argToHeaderVal (.str a) = argToHeaderVal (.arr [a]) := rfl

/-- A nonempty single string and the singleton array contribute the same
recipients. -/
theorem concatArg_single (acc : List (List Char)) (a : List Char) (ha : a ≠ []) :
    concatArg acc (.str a) = concatArg acc (.arr [a]) := by
  cases a with
  | nil => exact absurd rfl ha
  | cons c l => rfl

/-- concatArg only appends, keeping earlier recipients in place. -/
theorem concatArg_cons (x : List Char) (acc : List (List Char)) (arg : JsArg) :
    concatArg (x :: acc) arg = x :: concatArg acc arg := by
  cases arg with
  | undef => rfl
  | str s =>
    by_cases hs : s.isEmpty
    · simp [concatArg, hs]
    · simp [concatArg, hs]
  | arr l => rfl

/-- buildMime is unchanged when a single to string is replaced by the
singleton array. -/
theorem buildMime_toF_single (fv : List Char) (m : Msg) (ent : Entropy) (a : List Char) :
    buildMime fv { m with toF := .str a } ent = buildMime fv { m with toF := .arr [a] } ent := by
  simp only [buildMime, argToHeaderVal_single]

/-- buildMime is unchanged when a single nonempty cc string is replaced
by the singleton array. -/
theorem buildMime_cc_single (fv : List Char) (m : Msg) (ent : Entropy) (a : List Char)
    (ha : a ≠ []) :
    buildMime fv { m with cc := .str a } ent = buildMime fv { m with cc := .arr [a] } ent := by
  have ht : argTruthy (.str a) = argTruthy (.arr [a]) := by
    cases a with
    | nil => exact absurd rfl ha
    | cons c l => rfl
  simp only [buildMime, argToHeaderVal_single, ht]

/-- buildMime is unchanged when a single nonempty bcc string is replaced
by the singleton array. -/
theorem buildMime_bcc_single (fv : List Char) (m : Msg) (ent : Entropy) (a : List Char)
    (ha : a ≠ []) :
    buildMime fv { m with bcc := .str a } ent = buildMime fv { m with bcc := .arr [a] } ent := by
  have ht : argTruthy (.str a) = argTruthy (.arr [a]) := by
    cases a with
    | nil => exact absurd rfl ha
    | cons c l => rfl
  simp only [buildMime, argToHeaderVal_single, ht]

/-- send depends on the message only through the from field, the derived
recipient list, and the built MIME document. -/
theorem send_congr (cfg : Cfg) (m1 m2 : Msg) (ent : Entropy) (script : List Response)
    (hfrom : m1.fromA = m2.fromA)
    (hr : rcptsOf m1.toF m1.cc m1.bcc = rcptsOf m2.toF m2.cc m2.bcc)
    (hb : ∀ fv, buildMime fv m1 ent = buildMime fv m2 ent) :
    send cfg m1 ent script = send cfg m2 ent script := by
  simp only [send, hfrom, hr, hb]

/--
Claim C10: send accepts a single nonempty address string (not wrapped in
a sequence) for any of to, cc or bcc and treats it exactly as the
singleton sequence — the whole send behaves identically — and the
derived recipient sequence contains the address in position.
-/
theorem send_single_string_recipient (a : List Char) (ha : a ≠ []) (cfg : Cfg) (m : Msg)
    (ent : Entropy) (script : List Response) :
    send cfg { m with toF := .str a } ent script
        = send cfg { m with toF := .arr [a] } ent script
      ∧ send cfg { m with cc := .str a } ent script
          = send cfg { m with cc := .arr [a] } ent script
      ∧ send cfg { m with bcc := .str a } ent script
          = send cfg { m with bcc := .arr [a] } ent script
      ∧ rcptsOf (.str a) m.cc m.bcc = a :: rcptsOf .undef m.cc m.bcc := by
  refine ⟨?_, ?_, ?_, ?_⟩
  · exact send_congr cfg _ _ ent script rfl
      (by simp [rcptsOf, concatArg_single _ a ha])
      (fun fv => buildMime_toF_single fv m ent a)
  · exact send_congr cfg _ _ ent script rfl
      (by simp [rcptsOf, concatArg_single _ a ha])
      (fun fv => buildMime_cc_single fv m ent a ha)
  · exact send_congr cfg _ _ ent script rfl
      (by simp [rcptsOf, concatArg_single _ a ha])
      (fun fv => buildMime_bcc_single fv m ent a ha)
  · have h0 : concatArg [] (.str a) = [a] := by
      cases a with
      | nil => exact absurd rfl ha
      | cons c l => rfl
    rw [rcptsOf, rcptsOf, h0, concatArg_cons, concatArg_cons]
    rfl

/-- Witness for claim C10 at a concrete address, message and script. -/
theorem send_single_string_recipient_witness :
    send ⟨strL "h", 587, true, none, none, strL "me"⟩
          { fromA := some (strL "f@x"), toF := .str (strL "solo@x"), cc := .undef,
            bcc := .undef, subject := none, text := none, html := none, attachments := [] }
          ⟨[], [], [], []⟩ []
        = send ⟨strL "h", 587, true, none, none, strL "me"⟩
            { fromA := some (strL "f@x"), toF := .arr [strL "solo@x"], cc := .undef,
              bcc := .undef, subject := none, text := none, html := none, attachments := [] }
            ⟨[], [], [], []⟩ []
      ∧ rcptsOf (.str (strL "solo@x")) JsArg.undef JsArg.undef
          = strL "solo@x" :: rcptsOf .undef .undef .undef :=
  ⟨(send_single_string_recipient (strL "solo@x") (by decide)
      ⟨strL "h", 587, true, none, none, strL "me"⟩
      { fromA := some (strL "f@x"), toF := .undef, cc := .undef, bcc := .undef,
        subject := none, text := none, html := none, attachments := [] }
      ⟨[], [], [], []⟩ []).1,
   (send_single_string_recipient (strL "solo@x") (by decide)
      ⟨strL "h", 587, true, none, none, strL "me"⟩
      { fromA := some (strL "f@x"), toF := .undef, cc := .undef, bcc := .undef,
        subject := none, text := none, html := none, attachments := [] }
      ⟨[], [], [], []⟩ []).2.2.2⟩

end SmtpClient
